import Mathlib

/-!
Shallow embedding of the RmbRT/Lock reader-writer guarded-resource library
(`src/include/Lock/Lock.hpp`, `ThreadSafe.inl`, `ReadLock.inl`, `WriteLock.inl`)
and proofs about it.

Modelling conventions:
* `ticket_t` is `std::uint16_t` in the source; tickets are only ever compared
  (never added), so they are modelled as `Nat`.
* Thread identities (`std::thread::id`) form a total order in C++; they are
  modelled as `Nat`.  The default-constructed id `std::thread::id()` (the
  "no thread" sentinel stored in `m_reserved_by`) is modelled as `none` of
  `Option Nat`, so `m_reserved_by : Option Nat`.
* The wrapped object `T` is modelled as `Nat` (the claims never depend on `T`).
* `assert` failures and thrown exceptions abort the operation deterministically;
  fallible operations return `Except`, and an error value carries no mutated
  state (matching abort/stack-unwind semantics).
* Each member function taking the resource by reference becomes a pure function
  `Resource → ... → Resource` (explicit state passing).  All fields are guarded
  by `m_mutex` in the source, so one C++ critical section becomes one Lean
  function application.
-/

namespace LockVerif

/-- The synchronization state of `lock::ThreadSafe<T>` (ThreadSafe.inl / Lock.hpp).
Fields mirror the C++ members: `m_write_lock : bool`, `m_read_locks :
std::atomic<std::size_t>`, `m_priority : ticket_t`, `m_reserved_by :
std::thread::id` (with `none` for the default-constructed "no thread" id),
and the wrapped object `m_object`. -/
structure Resource where
  m_write_lock : Bool
  m_read_locks : Nat
  m_priority : Nat
  m_reserved_by : Option Nat
  m_object : Nat
deriving DecidableEq

/-- C++ `ThreadSafe<T>::ThreadSafe(Args&&...)`: fresh resource.  `m_priority` is
left uninitialized by the source constructor, so it is passed in as `junk`. -/
def ThreadSafe_mk (junk v : Nat) : Resource :=
  { m_write_lock := false, m_read_locks := 0, m_priority := junk,
    m_reserved_by := none, m_object := v }

/-- C++ `ThreadSafe<T>::reserved()`: `m_reserved_by != std::thread::id()`. -/
def ThreadSafe_reserved (r : Resource) : Bool :=
  r.m_reserved_by != none

/-- C++ `ThreadSafe<T>::unreserve()`: `m_reserved_by = std::thread::id()`. -/
def ThreadSafe_unreserve (r : Resource) : Resource :=
  { r with m_reserved_by := none }

/-- C++ `ThreadSafe<T>::thread_can_claim()`:
`!reserved() || m_reserved_by == std::this_thread::get_id()`. -/
def thread_can_claim (r : Resource) (tid : Nat) : Bool :=
  !ThreadSafe_reserved r || r.m_reserved_by == some tid

/-- C++ `ThreadSafe<T>::reserve_locked(priority)` executed by thread `tid`:

    if(!reserved() || priority > m_priority)
    { m_reserved_by = tid; m_priority = priority; }
    else if(m_priority == priority)
      if(m_reserved_by >= tid) m_reserved_by = tid;

The `none` case of the match is unreachable: `reserved()` is true in the
`else` branch, so `m_reserved_by` is an actual thread id there. -/
def reserve_locked (r : Resource) (priority tid : Nat) : Resource :=
  if !ThreadSafe_reserved r || priority > r.m_priority then
    { r with m_reserved_by := some tid, m_priority := priority }
  else if r.m_priority == priority then
    match r.m_reserved_by with
    | some q => if q ≥ tid then { r with m_reserved_by := some tid } else r
    | none => r
  else
    r

/-- C++ `ThreadSafe<T>::reserve(priority)`: takes `m_mutex`, then `reserve_locked`. -/
def ThreadSafe_reserve (r : Resource) (priority tid : Nat) : Resource :=
  reserve_locked r priority tid

/-- C++ `ThreadSafe<T>::try_write()` executed by thread `tid`.  Returns
(whether the returned `WriteLock` is bound, the resource afterwards).

    if(!m_write_lock && !m_read_locks.load() && thread_can_claim())
    { m_write_lock = true; unreserve(); return WriteLock(*this, authorised); }
    else return WriteLock();  -/
def ts_try_write (r : Resource) (tid : Nat) : Bool × Resource :=
  if !r.m_write_lock && r.m_read_locks == 0 && thread_can_claim r tid then
    (true, ThreadSafe_unreserve { r with m_write_lock := true })
  else
    (false, r)

/-- C++ `ThreadSafe<T>::try_read()` executed by thread `tid`.

    if(!m_write_lock && thread_can_claim())
    { m_read_locks.fetch_add(1); unreserve(); return ReadLock(*this, authorised); }
    else return ReadLock();  -/
def ts_try_read (r : Resource) (tid : Nat) : Bool × Resource :=
  if !r.m_write_lock && thread_can_claim r tid then
    (true, ThreadSafe_unreserve { r with m_read_locks := r.m_read_locks + 1 })
  else
    (false, r)

/-- One iteration of the blocking loop in `ThreadSafe<T>::write()` (the body
of `for(;; std::this_thread::yield())`), with the ticket drawn for this call:
grant exactly as `try_write` does, otherwise `reserve_locked(ticket)` and
go round again.  Returns (granted?, resource afterwards). -/
def write_iteration (r : Resource) (tid ticket : Nat) : Bool × Resource :=
  if !r.m_write_lock && r.m_read_locks == 0 && thread_can_claim r tid then
    (true, ThreadSafe_unreserve { r with m_write_lock := true })
  else
    (false, reserve_locked r ticket tid)

/-- One iteration of the blocking loop in `ThreadSafe<T>::read()`. -/
def read_iteration (r : Resource) (tid ticket : Nat) : Bool × Resource :=
  if !r.m_write_lock && thread_can_claim r tid then
    (true, ThreadSafe_unreserve { r with m_read_locks := r.m_read_locks + 1 })
  else
    (false, reserve_locked r ticket tid)

/-- Errors thrown/asserted on illegal `ThreadSafe` lifetime operations. -/
inductive TeardownError where
  | bad_thread_safe_destruct
  | bad_thread_safe_move
deriving DecidableEq

/-- C++ `ThreadSafe<T>::~ThreadSafe()`: `assert(!m_write_lock && !m_read_locks);`
modelled with the assertion failure surfaced as an error. -/
def ThreadSafe_destruct (r : Resource) : Except TeardownError Unit :=
  if !r.m_write_lock && r.m_read_locks == 0 then
    Except.ok ()
  else
    Except.error TeardownError.bad_thread_safe_destruct

/-- C++ `ThreadSafe<T>::ThreadSafe(ThreadSafe&&)`: member-inits
`m_mutex(), m_write_lock(false), m_read_locks(0), m_object(move(...))`
(`m_priority` stays uninitialized — passed in as `junk`; `m_reserved_by`
is default-constructed, i.e. unreserved), then

    if(move.m_write_lock || move.m_read_locks.load())
      throw helper::bad_thread_safe_move();  -/
def ThreadSafe_move_construct (r : Resource) (junk : Nat) :
    Except TeardownError Resource :=
  if r.m_write_lock || !(r.m_read_locks == 0) then
    Except.error TeardownError.bad_thread_safe_move
  else
    Except.ok { m_write_lock := false, m_read_locks := 0, m_priority := junk,
                m_reserved_by := none, m_object := r.m_object }

/-- A `lock::ReadLock<T>` handle.  `m_proxy` is a pointer to a `ThreadSafe`;
in the single-resource world of the guard-level theorems it is `true` when the
guard is bound to the resource and `false` for `nullptr`. -/
structure ReadLockG where
  m_proxy : Bool
deriving DecidableEq

/-- A `lock::WriteLock<T>` handle (see `ReadLockG`). -/
structure WriteLockG where
  m_proxy : Bool
deriving DecidableEq

/-- C++ `ReadLock<T>::locked()`: `m_proxy != nullptr`. -/
def RL_locked (g : ReadLockG) : Bool := g.m_proxy

/-- C++ `WriteLock<T>::locked()`. -/
def WL_locked (g : WriteLockG) : Bool := g.m_proxy

/-- C++ `ReadLock<T>::ReadLock(ReadLock&&)`: steal the proxy, null the source.
Returns (the new guard, the moved-from source). -/
def RL_move_construct (g : ReadLockG) : ReadLockG × ReadLockG :=
  (⟨g.m_proxy⟩, ⟨false⟩)

/-- C++ `WriteLock<T>::WriteLock(WriteLock&&)`. -/
def WL_move_construct (g : WriteLockG) : WriteLockG × WriteLockG :=
  (⟨g.m_proxy⟩, ⟨false⟩)

/-- Failed `assert` inside a guard operation. -/
inductive AssertViolation where
  | empty_unlock
deriving DecidableEq

/-- C++ `ReadLock<T>::unlock()` against resource `r`:

    assert(locked() && "Tried to unlock empty lock.");
    --m_proxy->m_read_locks; m_proxy = nullptr;

The assertion failure aborts: no state is produced. -/
def RL_unlock (g : ReadLockG) (r : Resource) :
    Except AssertViolation (ReadLockG × Resource) :=
  if RL_locked g then
    Except.ok (⟨false⟩, { r with m_read_locks := r.m_read_locks - 1 })
  else
    Except.error AssertViolation.empty_unlock

/-- C++ `WriteLock<T>::unlock()` against resource `r`:

    assert(locked() && "Tried to unlock empty lock.");
    m_proxy->m_write_lock = false; m_proxy = nullptr;  -/
def WL_unlock (g : WriteLockG) (r : Resource) :
    Except AssertViolation (WriteLockG × Resource) :=
  if WL_locked g then
    Except.ok (⟨false⟩, { r with m_write_lock := false })
  else
    Except.error AssertViolation.empty_unlock

/-! ### `helper::reserve` — the variadic reservation helper used by `multi_lock`

The two C++ overloads are

    template<class T>
    inline void reserve(ticket_t ticket, ThreadSafe<T> &ts)
    { ts.reserve(ticket); }

    template<class T, class ...Ts>
    inline void reserve(ticket_t ticket, ThreadSafe<T> &ts, ThreadSafe<Ts> &... rest)
    { reserve(ticket, rest...); }

Note that the variadic overload (chosen whenever at least two resources are
passed) does not touch its first argument `ts` at all: it recurses on `rest`
only.  The embedding mirrors that structure exactly over the list of resources
passed as the pack. -/
def helper_reserve (ticket tid : Nat) : List Resource → List Resource
  | [] => []
  | [r] => [ThreadSafe_reserve r ticket tid]
  | r :: rest0 :: restN => r :: helper_reserve ticket tid (rest0 :: restN)

/-- C++ `helper::reserve_ranges` (single-range overload): `for(auto it : range)
reserve(ticket, it.thread_safe);` — this one, used by `range_lock`, does reach
every resource. -/
def helper_reserve_ranges (ticket tid : Nat) (range : List Resource) :
    List Resource :=
  range.map (fun r => ThreadSafe_reserve r ticket tid)

/-! ### The optimistic multi-lock pass (`helper::try_lock`, `helper::try_lock_ranges`)

The pass operates on a store `st : List Resource`; a binding
(`ReadLockPair`/`WriteLockPair`) names its resource by index into the store,
so two bindings may alias the same resource, as the C++ reference pairs can. -/

/-- Lock mode of a binding: `ReadLockPair` or `WriteLockPair`. -/
inductive LMode where
  | readM
  | writeM
deriving DecidableEq

/-- A `lock::ReadLockPair<T>` / `lock::WriteLockPair<T>`: a guard slot bound
to the resource at index `res` of the store. -/
structure Binding where
  mode : LMode
  res : Nat
deriving DecidableEq

/-- C++ `helper::try_lock(pair)` (single-pair overloads): delegate to
`pair.lock.try_lock(pair.thread_safe)`, i.e. `try_read`/`try_write` by the
calling thread `tid`.  The out-of-range case cannot arise from C++ (references
are always valid); it is a benign no-op failure. -/
def pair_try_lock (tid : Nat) (b : Binding) (st : List Resource) :
    Bool × List Resource :=
  match st[b.res]? with
  | none => (false, st)
  | some r =>
    match b.mode with
    | LMode.writeM =>
      let p := ts_try_write r tid
      (p.1, st.set b.res p.2)
    | LMode.readM =>
      let p := ts_try_read r tid
      (p.1, st.set b.res p.2)

/-- C++ `pair.lock.unlock()` for an acquired binding: clear the write flag or
decrement the read count of the bound resource. -/
def pair_unlock (b : Binding) (st : List Resource) : List Resource :=
  match st[b.res]? with
  | none => st
  | some r =>
    match b.mode with
    | LMode.writeM => st.set b.res { r with m_write_lock := false }
    | LMode.readM => st.set b.res { r with m_read_locks := r.m_read_locks - 1 }

/-- C++ `helper::try_lock(pair, rest0, restN...)` (variadic overload):

    if(try_lock(pair))
    { if(!try_lock(rest0, restN...)) { pair.lock.unlock(); return false; }
      return true; }
    else return false;

The `[]` case has no C++ counterpart (`multi_lock` requires at least one
pair); it vacuously succeeds. -/
def try_lock_list (tid : Nat) : List Binding → List Resource → Bool × List Resource
  | [], st => (true, st)
  | [b], st => pair_try_lock tid b st
  | b :: rest0 :: restN, st =>
    let p := pair_try_lock tid b st
    if p.1 then
      let q := try_lock_list tid (rest0 :: restN) p.2
      if q.1 then (true, q.2) else (false, pair_unlock b q.2)
    else
      (false, p.2)

/-- C++ `for(auto &j : Range<T>(range.begin(), it)) j.lock.unlock();` /
`for(auto &i : range) i.lock.unlock();` — unlock a list of acquired bindings
in forward order. -/
def unlock_all (bs : List Binding) (st : List Resource) : List Resource :=
  bs.foldl (fun s b => pair_unlock b s) st

/-- C++ `helper::try_lock_ranges(range)` (single-range overload):

    for(auto it = range.begin(); it != range.end(); it++)
      if(!try_lock(*it))
      { for(auto &j : Range<T>(range.begin(), it)) j.lock.unlock();
        return false; }
    return true;

`acquired` is the already-iterated prefix `[begin, it)`. -/
def try_lock_range_from (tid : Nat) :
    List Binding → List Binding → List Resource → Bool × List Resource
  | _, [], st => (true, st)
  | acquired, b :: rest, st =>
    let p := pair_try_lock tid b st
    if p.1 then try_lock_range_from tid (acquired ++ [b]) rest p.2
    else (false, unlock_all acquired p.2)

/-- C++ `helper::try_lock_ranges(range, rest0, restN...)`:

    if(try_lock_ranges(range))
    { if(!try_lock_ranges(rest0, restN...))
      { for(auto &i : range) i.lock.unlock(); return false; }
      return true; }
    else return false;

(The uniform `[]` base collapses the single-range C++ base case: for `[rg]`
the recursion on `[]` succeeds immediately, leaving exactly the single-range
behaviour.) -/
def try_lock_ranges (tid : Nat) :
    List (List Binding) → List Resource → Bool × List Resource
  | [], st => (true, st)
  | rg :: rest, st =>
    let p := try_lock_range_from tid [] rg st
    if p.1 then
      let q := try_lock_ranges tid rest p.2
      if q.1 then (true, q.2) else (false, unlock_all rg q.2)
    else
      (false, p.2)

/-! ### State machine over one resource and all live guard objects

A system state pairs the resource with the list of live guard objects.
Each guard object records its kind and whether its `m_proxy` points at the
resource under consideration (a guard bound to a *different* resource
projects to `bound = false`, and operations on it affect this resource
exactly as the constructors below describe — see the comments on the
copy/move steps). -/

/-- Kind of a guard object. -/
inductive GKind where
  | readG
  | writeG
deriving DecidableEq

/-- A live `ReadLock`/`WriteLock` object, projected onto one resource:
`bound` is `m_proxy == &resource`. -/
structure GuardObj where
  kind : GKind
  bound : Bool
deriving DecidableEq

/-- A system state: the resource plus the live guard objects. -/
structure Sys where
  res : Resource
  guards : List GuardObj
deriving DecidableEq

/-- Number of live `ReadLock`s bound to the resource. -/
def boundR (gs : List GuardObj) : Nat :=
  gs.countP (fun g => g.kind == GKind.readG && g.bound)

/-- Number of live `WriteLock`s bound to the resource. -/
def boundW (gs : List GuardObj) : Nat :=
  gs.countP (fun g => g.kind == GKind.writeG && g.bound)

/-- One operation of the library, as it affects one resource and the live
guards.  Each constructor is one C++ member function (see its comment). -/
inductive Step : Sys → Sys → Prop where
  /-- C++ `ThreadSafe::try_write()` by thread `t`: the returned `WriteLock` is a
  new guard object, bound exactly when the try succeeded. -/
  | try_write (t : Nat) (s : Sys) :
      Step s ⟨(ts_try_write s.res t).2,
              s.guards ++ [⟨GKind.writeG, (ts_try_write s.res t).1⟩]⟩
  /-- C++ `ThreadSafe::try_read()` by thread `t`. -/
  | try_read (t : Nat) (s : Sys) :
      Step s ⟨(ts_try_read s.res t).2,
              s.guards ++ [⟨GKind.readG, (ts_try_read s.res t).1⟩]⟩
  /-- One iteration of blocking `ThreadSafe::write()` by thread `t` with
  ticket `k`: on grant the bound `WriteLock` is returned; otherwise the
  thread only reserves and loops (no guard exists yet). -/
  | write_iter (t k : Nat) (s : Sys) :
      Step s ⟨(write_iteration s.res t k).2,
              if (write_iteration s.res t k).1 then
                s.guards ++ [⟨GKind.writeG, true⟩]
              else s.guards⟩
  /-- One iteration of blocking `ThreadSafe::read()`. -/
  | read_iter (t k : Nat) (s : Sys) :
      Step s ⟨(read_iteration s.res t k).2,
              if (read_iteration s.res t k).1 then
                s.guards ++ [⟨GKind.readG, true⟩]
              else s.guards⟩
  /-- C++ `ThreadSafe::reserve(p)` by thread `t`. -/
  | reserve (t p : Nat) (s : Sys) :
      Step s ⟨ThreadSafe_reserve s.res p t, s.guards⟩
  /-- C++ `ReadLock()` / `WriteLock()`: a fresh empty guard. -/
  | rl_default (s : Sys) :
      Step s ⟨s.res, s.guards ++ [⟨GKind.readG, false⟩]⟩
  | wl_default (s : Sys) :
      Step s ⟨s.res, s.guards ++ [⟨GKind.writeG, false⟩]⟩
  /-- C++ `ReadLock(ReadLock const&)` of guard `i`:
  `m_proxy(other.m_proxy); if(m_proxy) ++m_proxy->m_read_locks;`
  (increments this resource's count exactly when `other` is bound to it). -/
  | rl_copy_ctor (i : Nat) (g : GuardObj) (s : Sys)
      (hi : s.guards[i]? = some g) (hk : g.kind = GKind.readG) :
      Step s ⟨(if g.bound then
                 { s.res with m_read_locks := s.res.m_read_locks + 1 }
               else s.res),
              s.guards ++ [⟨GKind.readG, g.bound⟩]⟩
  /-- C++ `ReadLock::operator=(ReadLock const&)`, target `i`, source `j`
  (the source allows `i = j`: the C++ copy assignment has no self check):

      if(m_proxy && m_proxy != other.m_proxy) --m_proxy->m_read_locks;
      m_proxy = other.m_proxy;
      if(other.m_proxy) ++other.m_proxy->m_read_locks;

  Projected onto this resource: the decrement hits it iff the target is
  bound to it and the source is not; the increment hits it iff the source
  is bound to it. -/
  | rl_copy_assign (i j : Nat) (gi gj : GuardObj) (s : Sys)
      (hi : s.guards[i]? = some gi) (hj : s.guards[j]? = some gj)
      (ki : gi.kind = GKind.readG) (kj : gj.kind = GKind.readG) :
      Step s ⟨{ s.res with m_read_locks :=
                  (if gi.bound && !gj.bound then s.res.m_read_locks - 1
                   else s.res.m_read_locks)
                  + (if gj.bound then 1 else 0) },
              s.guards.set i ⟨GKind.readG, gj.bound⟩⟩
  /-- C++ `ReadLock(ReadLock&&)` from guard `i`: steal the proxy, null `i`. -/
  | rl_move_ctor (i : Nat) (g : GuardObj) (s : Sys)
      (hi : s.guards[i]? = some g) (hk : g.kind = GKind.readG) :
      Step s ⟨s.res,
              s.guards.set i ⟨GKind.readG, false⟩ ++ [⟨GKind.readG, g.bound⟩]⟩
  /-- C++ `ReadLock::operator=(ReadLock&&)`, target `i`, source `j`, `i ≠ j`
  (self-move returns early):

      if(m_proxy) --m_proxy->m_read_locks;
      m_proxy = other.m_proxy; other.m_proxy = nullptr;

  The decrement hits this resource iff the target was bound to it. -/
  | rl_move_assign (i j : Nat) (gi gj : GuardObj) (s : Sys) (hij : i ≠ j)
      (hi : s.guards[i]? = some gi) (hj : s.guards[j]? = some gj)
      (ki : gi.kind = GKind.readG) (kj : gj.kind = GKind.readG) :
      Step s ⟨{ s.res with m_read_locks :=
                  (if gi.bound then s.res.m_read_locks - 1
                   else s.res.m_read_locks) },
              (s.guards.set i ⟨GKind.readG, gj.bound⟩).set j
                ⟨GKind.readG, false⟩⟩
  /-- C++ `ReadLock::~ReadLock()` of guard `i`: `if(locked()) --m_read_locks;`
  and the guard object ceases to exist. -/
  | rl_dtor (i : Nat) (g : GuardObj) (s : Sys)
      (hi : s.guards[i]? = some g) (hk : g.kind = GKind.readG) :
      Step s ⟨{ s.res with m_read_locks :=
                  (if g.bound then s.res.m_read_locks - 1
                   else s.res.m_read_locks) },
              s.guards.eraseIdx i⟩
  /-- C++ `ReadLock::unlock()` of guard `i`; the `assert(locked())` means the
  operation only completes when the guard is bound. -/
  | rl_unlock (i : Nat) (g : GuardObj) (s : Sys)
      (hi : s.guards[i]? = some g) (hk : g.kind = GKind.readG)
      (hb : g.bound = true) :
      Step s ⟨{ s.res with m_read_locks := s.res.m_read_locks - 1 },
              s.guards.set i ⟨GKind.readG, false⟩⟩
  /-- C++ `WriteLock(WriteLock&&)` from guard `i`. -/
  | wl_move_ctor (i : Nat) (g : GuardObj) (s : Sys)
      (hi : s.guards[i]? = some g) (hk : g.kind = GKind.writeG) :
      Step s ⟨s.res,
              s.guards.set i ⟨GKind.writeG, false⟩ ++ [⟨GKind.writeG, g.bound⟩]⟩
  /-- C++ `WriteLock::operator=(WriteLock&&)`, target `i`, source `j`, `i ≠ j`:

      if(locked()) m_proxy->m_write_lock = false;
      m_proxy = move.m_proxy; move.m_proxy = nullptr;  -/
  | wl_move_assign (i j : Nat) (gi gj : GuardObj) (s : Sys) (hij : i ≠ j)
      (hi : s.guards[i]? = some gi) (hj : s.guards[j]? = some gj)
      (ki : gi.kind = GKind.writeG) (kj : gj.kind = GKind.writeG) :
      Step s ⟨(if gi.bound then { s.res with m_write_lock := false }
               else s.res),
              (s.guards.set i ⟨GKind.writeG, gj.bound⟩).set j
                ⟨GKind.writeG, false⟩⟩
  /-- C++ `WriteLock::~WriteLock()` of guard `i`:
  `if(locked()) m_proxy->m_write_lock = false;`. -/
  | wl_dtor (i : Nat) (g : GuardObj) (s : Sys)
      (hi : s.guards[i]? = some g) (hk : g.kind = GKind.writeG) :
      Step s ⟨(if g.bound then { s.res with m_write_lock := false }
               else s.res),
              s.guards.eraseIdx i⟩
  /-- C++ `WriteLock::unlock()` of guard `i` (bound, per the assertion). -/
  | wl_unlock (i : Nat) (g : GuardObj) (s : Sys)
      (hi : s.guards[i]? = some g) (hk : g.kind = GKind.writeG)
      (hb : g.bound = true) :
      Step s ⟨{ s.res with m_write_lock := false },
              s.guards.set i ⟨GKind.writeG, false⟩⟩

/-- States reachable from a freshly constructed resource (arbitrary
uninitialized `m_priority`, arbitrary wrapped value, no guards yet) by any
sequence of library operations. -/
inductive Reachable : Sys → Prop where
  | init (junk v : Nat) : Reachable ⟨ThreadSafe_mk junk v, []⟩
  | step {s s' : Sys} : Reachable s → Step s s' → Reachable s'

/-- The inductive invariant tying the resource's synchronization fields to
the live guard objects: the write flag is set exactly when one `WriteLock` is
bound (so at most one ever is), the read counter bounds the number of bound
`ReadLock`s from above, and a set write flag forces a zero read counter. -/
def SysInv (s : Sys) : Prop :=
  boundW s.guards = (if s.res.m_write_lock then 1 else 0) ∧
  boundR s.guards ≤ s.res.m_read_locks ∧
  (s.res.m_write_lock = true → s.res.m_read_locks = 0)

/-! ### Lock-state projection for the all-or-nothing rollback proofs

The rollback claim is about the *lock* state of each resource (write flag and
read count); a failed optimistic pass may legitimately consume reservations
(a successful `try_lock` unreserves before a later binding fails), so the
projection below forgets the reservation fields. -/

/-- The lock state of a resource: (write flag, read count). -/
def lockState (r : Resource) : Bool × Nat :=
  (r.m_write_lock, r.m_read_locks)

/-- Lock states of the whole store. -/
def proj (st : List Resource) : List (Bool × Nat) :=
  st.map lockState

/-- The effect of `pair_unlock` on the lock-state projection. -/
def projUnlock (b : Binding) (ps : List (Bool × Nat)) : List (Bool × Nat) :=
  match ps[b.res]? with
  | none => ps
  | some x =>
    match b.mode with
    | LMode.writeM => ps.set b.res (false, x.2)
    | LMode.readM => ps.set b.res (x.1, x.2 - 1)

/-- Number of write bindings on store index `i` among the acquired list. -/
def wcnt (acq : List Binding) (i : Nat) : Nat :=
  acq.countP (fun b => b.mode == LMode.writeM && b.res == i)

/-- Number of read bindings on store index `i` among the acquired list. -/
def rcnt (acq : List Binding) (i : Nat) : Nat :=
  acq.countP (fun b => b.mode == LMode.readM && b.res == i)

/-- Invariant of the optimistic pass: `ps0` is the lock-state projection
before the pass, `acq` the bindings acquired so far, `ps` the current
projection.  Per store index: with no write binding acquired, the write flag
is unchanged and the read count has grown by exactly the number of acquired
read bindings; with a write binding acquired there is exactly one, no read
bindings, the index was fully unlocked before, and is write-locked now. -/
def AcqInv (ps0 : List (Bool × Nat)) (acq : List Binding)
    (ps : List (Bool × Nat)) : Prop :=
  ps.length = ps0.length ∧
  (∀ b ∈ acq, b.res < ps.length) ∧
  ∀ i x0 x, ps0[i]? = some x0 → ps[i]? = some x →
    (wcnt acq i = 0 →
      x.1 = x0.1 ∧ x.2 = x0.2 + rcnt acq i ∧ (rcnt acq i ≠ 0 → x0.1 = false)) ∧
    (wcnt acq i ≠ 0 →
      wcnt acq i = 1 ∧ rcnt acq i = 0 ∧ x0 = (false, 0) ∧ x = (true, 0))

/-! ### List bookkeeping lemmas -/

theorem countP_set_add {α : Type} (p : α → Bool) :
    ∀ (l : List α) (i : Nat) (g g' : α), l[i]? = some g →
      (l.set i g').countP p + (if p g then 1 else 0)
        = l.countP p + (if p g' then 1 else 0)
  | [], i, g, g', h => by simp at h
  | a :: l, 0, g, g', h => by
    simp only [List.getElem?_cons_zero, Option.some.injEq] at h
    subst h
    simp only [List.set_cons_zero, List.countP_cons]
    omega
  | a :: l, i + 1, g, g', h => by
    simp only [List.getElem?_cons_succ] at h
    have ih := countP_set_add p l i g g' h
    simp only [List.set_cons_succ, List.countP_cons]
    omega

theorem countP_eraseIdx_add {α : Type} (p : α → Bool) :
    ∀ (l : List α) (i : Nat) (g : α), l[i]? = some g →
      (l.eraseIdx i).countP p + (if p g then 1 else 0) = l.countP p
  | [], i, g, h => by simp at h
  | a :: l, 0, g, h => by
    simp only [List.getElem?_cons_zero, Option.some.injEq] at h
    subst h
    simp only [List.eraseIdx_cons_zero, List.countP_cons]
  | a :: l, i + 1, g, h => by
    simp only [List.getElem?_cons_succ] at h
    have ih := countP_eraseIdx_add p l i g h
    simp only [List.eraseIdx_cons_succ, List.countP_cons]
    omega

theorem countP_pos_of_idx {α : Type} (p : α → Bool) :
    ∀ (l : List α) (i : Nat) (g : α), l[i]? = some g → p g = true →
      1 ≤ l.countP p
  | [], i, g, h, _ => by simp at h
  | a :: l, 0, g, h, hp => by
    simp only [List.getElem?_cons_zero, Option.some.injEq] at h
    subst h
    simp [List.countP_cons, hp]
  | a :: l, i + 1, g, h, hp => by
    simp only [List.getElem?_cons_succ] at h
    have ih := countP_pos_of_idx p l i g h hp
    simp only [List.countP_cons]
    omega

theorem countP_two_of_idx {α : Type} (p : α → Bool) :
    ∀ (l : List α) (i j : Nat) (gi gj : α), i ≠ j →
      l[i]? = some gi → l[j]? = some gj → p gi = true → p gj = true →
      2 ≤ l.countP p
  | [], i, j, gi, gj, _, hi, _, _, _ => by simp at hi
  | a :: l, 0, 0, gi, gj, hij, _, _, _, _ => absurd rfl hij
  | a :: l, 0, j + 1, gi, gj, _, hi, hj, hpi, hpj => by
    simp only [List.getElem?_cons_zero, Option.some.injEq] at hi
    subst hi
    simp only [List.getElem?_cons_succ] at hj
    have := countP_pos_of_idx p l j gj hj hpj
    simp only [List.countP_cons, hpi, if_true]
    omega
  | a :: l, i + 1, 0, gi, gj, _, hi, hj, hpi, hpj => by
    simp only [List.getElem?_cons_zero, Option.some.injEq] at hj
    subst hj
    simp only [List.getElem?_cons_succ] at hi
    have := countP_pos_of_idx p l i gi hi hpi
    simp only [List.countP_cons, hpj, if_true]
    omega
  | a :: l, i + 1, j + 1, gi, gj, hij, hi, hj, hpi, hpj => by
    simp only [List.getElem?_cons_succ] at hi hj
    have ih := countP_two_of_idx p l i j gi gj
      (fun he => hij (by omega)) hi hj hpi hpj
    simp only [List.countP_cons]
    omega

theorem boundW_append (gs : List GuardObj) (g : GuardObj) :
    boundW (gs ++ [g])
      = boundW gs + (if g.kind == GKind.writeG && g.bound then 1 else 0) := by
  simp [boundW, List.countP_append, List.countP_cons]

theorem boundR_append (gs : List GuardObj) (g : GuardObj) :
    boundR (gs ++ [g])
      = boundR gs + (if g.kind == GKind.readG && g.bound then 1 else 0) := by
  simp [boundR, List.countP_append, List.countP_cons]

/-! ### Field-preservation facts about `reserve_locked` -/

theorem reserve_locked_m_write_lock (r : Resource) (p t : Nat) :
    (reserve_locked r p t).m_write_lock = r.m_write_lock := by
  unfold reserve_locked
  repeat' split
  all_goals rfl

theorem reserve_locked_m_read_locks (r : Resource) (p t : Nat) :
    (reserve_locked r p t).m_read_locks = r.m_read_locks := by
  unfold reserve_locked
  repeat' split
  all_goals rfl

theorem reserve_locked_m_object (r : Resource) (p t : Nat) :
    (reserve_locked r p t).m_object = r.m_object := by
  unfold reserve_locked
  repeat' split
  all_goals rfl

theorem boundR_set (gs : List GuardObj) (i : Nat) (gi g' : GuardObj)
    (hi : gs[i]? = some gi) :
    boundR (gs.set i g') + (if gi.kind == GKind.readG && gi.bound then 1 else 0)
      = boundR gs + (if g'.kind == GKind.readG && g'.bound then 1 else 0) :=
  countP_set_add _ gs i gi g' hi

theorem boundW_set (gs : List GuardObj) (i : Nat) (gi g' : GuardObj)
    (hi : gs[i]? = some gi) :
    boundW (gs.set i g') + (if gi.kind == GKind.writeG && gi.bound then 1 else 0)
      = boundW gs + (if g'.kind == GKind.writeG && g'.bound then 1 else 0) :=
  countP_set_add _ gs i gi g' hi

theorem boundR_eraseIdx (gs : List GuardObj) (i : Nat) (gi : GuardObj)
    (hi : gs[i]? = some gi) :
    boundR (gs.eraseIdx i) + (if gi.kind == GKind.readG && gi.bound then 1 else 0)
      = boundR gs :=
  countP_eraseIdx_add _ gs i gi hi

theorem boundW_eraseIdx (gs : List GuardObj) (i : Nat) (gi : GuardObj)
    (hi : gs[i]? = some gi) :
    boundW (gs.eraseIdx i) + (if gi.kind == GKind.writeG && gi.bound then 1 else 0)
      = boundW gs :=
  countP_eraseIdx_add _ gs i gi hi

theorem boundR_pos (gs : List GuardObj) (i : Nat) (gi : GuardObj)
    (hi : gs[i]? = some gi) (hk : gi.kind = GKind.readG) (hb : gi.bound = true) :
    1 ≤ boundR gs :=
  countP_pos_of_idx _ gs i gi hi (by simp [hk, hb])

theorem boundW_pos (gs : List GuardObj) (i : Nat) (gi : GuardObj)
    (hi : gs[i]? = some gi) (hk : gi.kind = GKind.writeG) (hb : gi.bound = true) :
    1 ≤ boundW gs :=
  countP_pos_of_idx _ gs i gi hi (by simp [hk, hb])

theorem boundW_two (gs : List GuardObj) (i j : Nat) (gi gj : GuardObj)
    (hij : i ≠ j) (hi : gs[i]? = some gi) (hj : gs[j]? = some gj)
    (ki : gi.kind = GKind.writeG) (kj : gj.kind = GKind.writeG)
    (bi : gi.bound = true) (bj : gj.bound = true) :
    2 ≤ boundW gs :=
  countP_two_of_idx _ gs i j gi gj hij hi hj (by simp [ki, bi]) (by simp [kj, bj])

/-! ### Preservation of `SysInv` by every operation -/

theorem sysInv_def (r : Resource) (gs : List GuardObj) :
    SysInv ⟨r, gs⟩ ↔ (boundW gs = (if r.m_write_lock then 1 else 0)
      ∧ boundR gs ≤ r.m_read_locks
      ∧ (r.m_write_lock = true → r.m_read_locks = 0)) := Iff.rfl

theorem inv_res_congr {r r' : Resource} {gs : List GuardObj}
    (hW : r'.m_write_lock = r.m_write_lock)
    (hR : r'.m_read_locks = r.m_read_locks)
    (h : SysInv ⟨r, gs⟩) : SysInv ⟨r', gs⟩ := by
  rw [sysInv_def] at h ⊢
  rw [hW, hR]
  exact h

theorem inv_append {r : Resource} {gs : List GuardObj} {g : GuardObj}
    (hg : g.bound = false) (h : SysInv ⟨r, gs⟩) : SysInv ⟨r, gs ++ [g]⟩ := by
  rw [sysInv_def] at h ⊢
  obtain ⟨h2, h3, h4⟩ := h
  refine ⟨?_, ?_, h4⟩
  · rw [boundW_append]; simp [hg, h2]
  · rw [boundR_append]; simp [hg, h3]

theorem grantW_inv {r : Resource} {gs : List GuardObj}
    (h : SysInv ⟨r, gs⟩) (hw : r.m_write_lock = false)
    (hr : r.m_read_locks = 0) :
    SysInv ⟨ThreadSafe_unreserve { r with m_write_lock := true },
            gs ++ [⟨GKind.writeG, true⟩]⟩ := by
  rw [sysInv_def] at h ⊢
  obtain ⟨h2, h3, h4⟩ := h
  rw [hw] at h2
  simp only [ThreadSafe_unreserve, boundW_append, boundR_append]
  refine ⟨?_, ?_, ?_⟩
  · simp at h2 ⊢
    omega
  · simp
    omega
  · intro _
    exact hr

theorem grantR_inv {r : Resource} {gs : List GuardObj}
    (h : SysInv ⟨r, gs⟩) (hw : r.m_write_lock = false) :
    SysInv ⟨ThreadSafe_unreserve { r with m_read_locks := r.m_read_locks + 1 },
            gs ++ [⟨GKind.readG, true⟩]⟩ := by
  rw [sysInv_def] at h ⊢
  obtain ⟨h2, h3, h4⟩ := h
  simp only [ThreadSafe_unreserve, boundW_append, boundR_append]
  refine ⟨?_, ?_, ?_⟩
  · simp [hw] at h2 ⊢
    exact h2
  · simp
    omega
  · intro hcontra
    rw [hw] at hcontra
    exact Bool.noConfusion hcontra

theorem step_inv {s s' : Sys} (hs : Step s s') (h : SysInv s) : SysInv s' := by
  cases hs with
  | try_write t s =>
    by_cases hc : (!s.res.m_write_lock && s.res.m_read_locks == 0
        && thread_can_claim s.res t) = true
    · have hc' : (s.res.m_write_lock = false ∧ s.res.m_read_locks = 0)
          ∧ thread_can_claim s.res t = true := by
        simpa [Bool.and_eq_true, Bool.not_eq_true'] using hc
      obtain ⟨⟨hw, hr⟩, -⟩ := hc'
      have : ts_try_write s.res t
          = (true, ThreadSafe_unreserve { s.res with m_write_lock := true }) := by
        unfold ts_try_write; rw [if_pos hc]
      rw [this]
      exact grantW_inv h hw hr
    · have : ts_try_write s.res t = (false, s.res) := by
        unfold ts_try_write; rw [if_neg hc]
      rw [this]
      exact inv_append rfl h
  | try_read t s =>
    by_cases hc : (!s.res.m_write_lock && thread_can_claim s.res t) = true
    · have hc' : s.res.m_write_lock = false ∧ thread_can_claim s.res t = true := by
        simpa [Bool.and_eq_true, Bool.not_eq_true'] using hc
      have : ts_try_read s.res t
          = (true, ThreadSafe_unreserve
              { s.res with m_read_locks := s.res.m_read_locks + 1 }) := by
        unfold ts_try_read; rw [if_pos hc]
      rw [this]
      exact grantR_inv h hc'.1
    · have : ts_try_read s.res t = (false, s.res) := by
        unfold ts_try_read; rw [if_neg hc]
      rw [this]
      exact inv_append rfl h
  | write_iter t k s =>
    by_cases hc : (!s.res.m_write_lock && s.res.m_read_locks == 0
        && thread_can_claim s.res t) = true
    · have hc' : (s.res.m_write_lock = false ∧ s.res.m_read_locks = 0)
          ∧ thread_can_claim s.res t = true := by
        simpa [Bool.and_eq_true, Bool.not_eq_true'] using hc
      obtain ⟨⟨hw, hr⟩, -⟩ := hc'
      have heq : write_iteration s.res t k
          = (true, ThreadSafe_unreserve { s.res with m_write_lock := true }) := by
        unfold write_iteration; rw [if_pos hc]
      rw [heq]
      simp only [if_true]
      exact grantW_inv h hw hr
    · have heq : write_iteration s.res t k
          = (false, reserve_locked s.res k t) := by
        unfold write_iteration; rw [if_neg hc]
      rw [heq]
      simp only [Bool.false_eq_true, if_false]
      exact inv_res_congr (reserve_locked_m_write_lock s.res k t)
        (reserve_locked_m_read_locks s.res k t) h
  | read_iter t k s =>
    by_cases hc : (!s.res.m_write_lock && thread_can_claim s.res t) = true
    · have hc' : s.res.m_write_lock = false ∧ thread_can_claim s.res t = true := by
        simpa [Bool.and_eq_true, Bool.not_eq_true'] using hc
      have heq : read_iteration s.res t k
          = (true, ThreadSafe_unreserve
              { s.res with m_read_locks := s.res.m_read_locks + 1 }) := by
        unfold read_iteration; rw [if_pos hc]
      rw [heq]
      simp only [if_true]
      exact grantR_inv h hc'.1
    · have heq : read_iteration s.res t k
          = (false, reserve_locked s.res k t) := by
        unfold read_iteration; rw [if_neg hc]
      rw [heq]
      simp only [Bool.false_eq_true, if_false]
      exact inv_res_congr (reserve_locked_m_write_lock s.res k t)
        (reserve_locked_m_read_locks s.res k t) h
  | reserve t p s =>
    exact inv_res_congr (reserve_locked_m_write_lock s.res p t)
      (reserve_locked_m_read_locks s.res p t) h
  | rl_default s => exact inv_append rfl h
  | wl_default s => exact inv_append rfl h
  | rl_copy_ctor i g s hi hk =>
    obtain ⟨h2, h3, h4⟩ := h
    cases hgb : g.bound with
    | false =>
      simp only [hgb, Bool.false_eq_true, if_false]
      exact inv_append rfl ⟨h2, h3, h4⟩
    | true =>
      have hpos : 1 ≤ boundR s.guards := boundR_pos s.guards i g hi hk hgb
      have hw : s.res.m_write_lock = false := by
        cases hwb : s.res.m_write_lock with
        | false => rfl
        | true => exact absurd (h4 hwb) (by omega)
      simp only [hgb, if_true]
      rw [sysInv_def]
      refine ⟨?_, ?_, ?_⟩
      · rw [boundW_append]
        simp [hw] at h2 ⊢
        exact h2
      · rw [boundR_append]
        simp
        omega
      · intro hcontra
        simp [hw] at hcontra
  | rl_copy_assign i j gi gj s hi hj ki kj =>
    obtain ⟨h2, h3, h4⟩ := h
    have hW := boundW_set s.guards i gi ⟨GKind.readG, gj.bound⟩ hi
    have hR := boundR_set s.guards i gi ⟨GKind.readG, gj.bound⟩ hi
    have hgiR : gi.bound = true → 1 ≤ boundR s.guards :=
      fun hb => boundR_pos s.guards i gi hi ki hb
    have hgjR : gj.bound = true → 1 ≤ boundR s.guards :=
      fun hb => boundR_pos s.guards j gj hj kj hb
    have hW2 : boundW (s.guards.set i ⟨GKind.readG, gj.bound⟩)
        = boundW s.guards := by
      simpa [ki] using hW
    have key : s.res.m_write_lock = true → gi.bound = false ∧ gj.bound = false := by
      intro hw
      have hr0 := h4 hw
      constructor
      · cases hgib : gi.bound with
        | false => rfl
        | true => exact absurd (hgiR hgib) (by omega)
      · cases hgjb : gj.bound with
        | false => rfl
        | true => exact absurd (hgjR hgjb) (by omega)
    rw [sysInv_def]
    refine ⟨?_, ?_, ?_⟩
    · simp only [hW2]
      exact h2
    · cases hgib : gi.bound with
      | true =>
        have hbr1 := hgiR hgib
        cases hgjb : gj.bound with
        | true => simp [ki, hgib, hgjb] at hR ⊢; omega
        | false => simp [ki, hgib, hgjb] at hR ⊢; omega
      | false =>
        cases hgjb : gj.bound with
        | true => simp [ki, hgib, hgjb] at hR ⊢; omega
        | false => simp [ki, hgib, hgjb] at hR ⊢; omega
    · intro hw'
      have hw : s.res.m_write_lock = true := by simpa using hw'
      obtain ⟨hgib, hgjb⟩ := key hw
      have hr0 := h4 hw
      simp [hgib, hgjb, hr0]
  | rl_move_ctor i g s hi hk =>
    obtain ⟨h2, h3, h4⟩ := h
    have hW := boundW_set s.guards i g ⟨GKind.readG, false⟩ hi
    have hR := boundR_set s.guards i g ⟨GKind.readG, false⟩ hi
    have hW2 : boundW (s.guards.set i ⟨GKind.readG, false⟩)
        = boundW s.guards := by
      simpa [hk] using hW
    rw [sysInv_def]
    rw [boundW_append, boundR_append]
    refine ⟨?_, ?_, h4⟩
    · simp [hW2]
      exact h2
    · simp [hk] at hR
      cases hgb : g.bound with
      | true => simp [hgb] at hR ⊢; omega
      | false => simp [hgb] at hR ⊢; omega
  | rl_move_assign i j gi gj s hij hi hj ki kj =>
    obtain ⟨h2, h3, h4⟩ := h
    have hj2 : (s.guards.set i ⟨GKind.readG, gj.bound⟩)[j]? = some gj := by
      rw [List.getElem?_set_ne hij]
      exact hj
    have hW1 := boundW_set s.guards i gi ⟨GKind.readG, gj.bound⟩ hi
    have hW2 := boundW_set (s.guards.set i ⟨GKind.readG, gj.bound⟩) j gj
      ⟨GKind.readG, false⟩ hj2
    have hR1 := boundR_set s.guards i gi ⟨GKind.readG, gj.bound⟩ hi
    have hR2 := boundR_set (s.guards.set i ⟨GKind.readG, gj.bound⟩) j gj
      ⟨GKind.readG, false⟩ hj2
    have hgiR : gi.bound = true → 1 ≤ boundR s.guards :=
      fun hb => boundR_pos s.guards i gi hi ki hb
    have hgjR : gj.bound = true → 1 ≤ boundR s.guards :=
      fun hb => boundR_pos s.guards j gj hj kj hb
    have hWall : boundW ((s.guards.set i ⟨GKind.readG, gj.bound⟩).set j
        ⟨GKind.readG, false⟩) = boundW s.guards := by
      simp [ki, kj] at hW1 hW2
      omega
    rw [sysInv_def]
    refine ⟨?_, ?_, ?_⟩
    · simp only [hWall]
      exact h2
    · simp [ki] at hR1
      simp [kj] at hR2
      cases hgib : gi.bound with
      | true =>
        have hbr1 := hgiR hgib
        cases hgjb : gj.bound with
        | true => simp [hgib, hgjb] at hR1 hR2 ⊢; omega
        | false => simp [hgib, hgjb] at hR1 hR2 ⊢; omega
      | false =>
        cases hgjb : gj.bound with
        | true => simp [hgib, hgjb] at hR1 hR2 ⊢; omega
        | false => simp [hgib, hgjb] at hR1 hR2 ⊢; omega
    · intro hw'
      have hw : s.res.m_write_lock = true := by simpa using hw'
      have hr0 := h4 hw
      have hgib : gi.bound = false := by
        cases hgib : gi.bound with
        | false => rfl
        | true => exact absurd (hgiR hgib) (by omega)
      simp [hgib, hr0]
  | rl_dtor i g s hi hk =>
    obtain ⟨h2, h3, h4⟩ := h
    have hW := boundW_eraseIdx s.guards i g hi
    have hR := boundR_eraseIdx s.guards i g hi
    have hW2 : boundW (s.guards.eraseIdx i) = boundW s.guards := by
      simpa [hk] using hW
    have hgR : g.bound = true → 1 ≤ boundR s.guards :=
      fun hb => boundR_pos s.guards i g hi hk hb
    rw [sysInv_def]
    refine ⟨?_, ?_, ?_⟩
    · simp only [hW2]
      exact h2
    · simp [hk] at hR
      cases hgb : g.bound with
      | true => simp [hgb] at hR ⊢; omega
      | false => simp [hgb] at hR ⊢; omega
    · intro hw'
      have hw : s.res.m_write_lock = true := by simpa using hw'
      have hr0 := h4 hw
      have hgb : g.bound = false := by
        cases hgb : g.bound with
        | false => rfl
        | true => exact absurd (hgR hgb) (by omega)
      simp [hgb, hr0]
  | rl_unlock i g s hi hk hb =>
    obtain ⟨h2, h3, h4⟩ := h
    have hW := boundW_set s.guards i g ⟨GKind.readG, false⟩ hi
    have hR := boundR_set s.guards i g ⟨GKind.readG, false⟩ hi
    have hW2 : boundW (s.guards.set i ⟨GKind.readG, false⟩)
        = boundW s.guards := by
      simpa [hk] using hW
    have hpos : 1 ≤ boundR s.guards := boundR_pos s.guards i g hi hk hb
    rw [sysInv_def]
    refine ⟨?_, ?_, ?_⟩
    · simp only [hW2]
      exact h2
    · simp [hk, hb] at hR
      simp
      omega
    · intro hw'
      have hw : s.res.m_write_lock = true := by simpa using hw'
      exact absurd hpos (by have := h4 hw; omega)
  | wl_move_ctor i g s hi hk =>
    obtain ⟨h2, h3, h4⟩ := h
    have hW := boundW_set s.guards i g ⟨GKind.writeG, false⟩ hi
    have hR := boundR_set s.guards i g ⟨GKind.writeG, false⟩ hi
    have hR2 : boundR (s.guards.set i ⟨GKind.writeG, false⟩)
        = boundR s.guards := by
      simpa [hk] using hR
    rw [sysInv_def]
    rw [boundW_append, boundR_append]
    refine ⟨?_, ?_, h4⟩
    · simp [hk] at hW
      cases hgb : g.bound with
      | true => simp [hgb] at hW ⊢; omega
      | false => simp [hgb] at hW ⊢; omega
    · simp [hR2]
      exact h3
  | wl_move_assign i j gi gj s hij hi hj ki kj =>
    obtain ⟨h2, h3, h4⟩ := h
    have hj2 : (s.guards.set i ⟨GKind.writeG, gj.bound⟩)[j]? = some gj := by
      rw [List.getElem?_set_ne hij]
      exact hj
    have hW1 := boundW_set s.guards i gi ⟨GKind.writeG, gj.bound⟩ hi
    have hW2 := boundW_set (s.guards.set i ⟨GKind.writeG, gj.bound⟩) j gj
      ⟨GKind.writeG, false⟩ hj2
    have hR1 := boundR_set s.guards i gi ⟨GKind.writeG, gj.bound⟩ hi
    have hR2 := boundR_set (s.guards.set i ⟨GKind.writeG, gj.bound⟩) j gj
      ⟨GKind.writeG, false⟩ hj2
    have hRall : boundR ((s.guards.set i ⟨GKind.writeG, gj.bound⟩).set j
        ⟨GKind.writeG, false⟩) = boundR s.guards := by
      simp [ki, kj] at hR1 hR2
      omega
    have hbound : ¬(gi.bound = true ∧ gj.bound = true) := by
      rintro ⟨bi, bj⟩
      have := boundW_two s.guards i j gi gj hij hi hj ki kj bi bj
      have hle : boundW s.guards ≤ 1 := by
        rw [h2]
        cases s.res.m_write_lock <;> simp
      omega
    have hgiW : gi.bound = true → 1 ≤ boundW s.guards :=
      fun hbb => boundW_pos s.guards i gi hi ki hbb
    have hgjW : gj.bound = true → 1 ≤ boundW s.guards :=
      fun hbb => boundW_pos s.guards j gj hj kj hbb
    simp [ki, kj] at hW1 hW2
    rw [sysInv_def]
    cases hgib : gi.bound with
    | true =>
      have hgjb : gj.bound = false := by
        cases hgjb : gj.bound with
        | false => rfl
        | true => exact absurd ⟨hgib, hgjb⟩ hbound
      have hw : s.res.m_write_lock = true := by
        have h1b := hgiW hgib
        cases hwb : s.res.m_write_lock with
        | true => rfl
        | false => rw [hwb] at h2; simp at h2; omega
      simp only [hgib, if_true]
      refine ⟨?_, ?_, ?_⟩
      · rw [hw] at h2
        simp at h2
        simp [hgib, hgjb] at hW1 hW2
        simp [hgjb]
        omega
      · simp [hRall]
        exact h3
      · intro hcontra
        simp at hcontra
    | false =>
      simp only [hgib, Bool.false_eq_true, if_false]
      refine ⟨?_, ?_, ?_⟩
      · simp [hgib] at hW1 hW2
        cases hgjb : gj.bound with
        | true =>
          simp [hgjb] at hW1 hW2
          omega
        | false =>
          simp [hgjb] at hW1 hW2
          omega
      · simp [hRall]
        exact h3
      · exact h4
  | wl_dtor i g s hi hk =>
    obtain ⟨h2, h3, h4⟩ := h
    have hW := boundW_eraseIdx s.guards i g hi
    have hR := boundR_eraseIdx s.guards i g hi
    have hR2 : boundR (s.guards.eraseIdx i) = boundR s.guards := by
      simpa [hk] using hR
    simp [hk] at hW
    rw [sysInv_def]
    cases hgb : g.bound with
    | true =>
      have hw : s.res.m_write_lock = true := by
        have h1b := boundW_pos s.guards i g hi hk hgb
        cases hwb : s.res.m_write_lock with
        | true => rfl
        | false => rw [hwb] at h2; simp at h2; omega
      simp only [hgb, if_true]
      refine ⟨?_, ?_, ?_⟩
      · rw [hw] at h2
        simp [hgb] at hW
        simp at h2
        simp
        omega
      · simp [hR2]
        exact h3
      · intro hcontra
        simp at hcontra
    | false =>
      simp only [hgb, Bool.false_eq_true, if_false]
      simp [hgb] at hW
      refine ⟨?_, ?_, h4⟩
      · rw [hW]
        exact h2
      · rw [hR2]
        exact h3
  | wl_unlock i g s hi hk hb =>
    obtain ⟨h2, h3, h4⟩ := h
    have hW := boundW_set s.guards i g ⟨GKind.writeG, false⟩ hi
    have hR := boundR_set s.guards i g ⟨GKind.writeG, false⟩ hi
    have hR2 : boundR (s.guards.set i ⟨GKind.writeG, false⟩)
        = boundR s.guards := by
      simpa [hk] using hR
    have hw : s.res.m_write_lock = true := by
      have h1b := boundW_pos s.guards i g hi hk hb
      cases hwb : s.res.m_write_lock with
      | true => rfl
      | false => rw [hwb] at h2; simp at h2; omega
    simp [hk, hb] at hW
    rw [sysInv_def]
    refine ⟨?_, ?_, ?_⟩
    · rw [hw] at h2
      simp at h2
      simp
      omega
    · rw [hR2]
      exact h3
    · intro hcontra
      simp at hcontra

/-! ### All-or-nothing rollback of the optimistic multi-lock pass -/

theorem set_self_of_getElem {α : Type} :
    ∀ (l : List α) (i : Nat) (a : α), l[i]? = some a → l.set i a = l
  | [], i, a, h => by simp at h
  | x :: l, 0, a, h => by
    simp only [List.getElem?_cons_zero, Option.some.injEq] at h
    subst h
    rfl
  | x :: l, i + 1, a, h => by
    simp only [List.getElem?_cons_succ] at h
    simp only [List.set_cons_succ]
    rw [set_self_of_getElem l i a h]

theorem proj_length (st : List Resource) : (proj st).length = st.length := by
  simp [proj]

theorem proj_getElem (st : List Resource) (i : Nat) :
    (proj st)[i]? = (st[i]?).map lockState := by
  simp [proj]

theorem proj_set (st : List Resource) (i : Nat) (r : Resource) :
    proj (st.set i r) = (proj st).set i (lockState r) := by
  simp [proj, List.map_set]

theorem ts_try_write_fail (r : Resource) (t : Nat)
    (h : (ts_try_write r t).1 = false) : (ts_try_write r t).2 = r := by
  unfold ts_try_write at h ⊢
  cases hc : (!r.m_write_lock && r.m_read_locks == 0 && thread_can_claim r t) with
  | true =>
    rw [if_pos hc] at h
    exact absurd h (by simp)
  | false =>
    rw [if_neg (by simp [hc])]

theorem ts_try_read_fail (r : Resource) (t : Nat)
    (h : (ts_try_read r t).1 = false) : (ts_try_read r t).2 = r := by
  unfold ts_try_read at h ⊢
  cases hc : (!r.m_write_lock && thread_can_claim r t) with
  | true =>
    rw [if_pos hc] at h
    exact absurd h (by simp)
  | false =>
    rw [if_neg (by simp [hc])]

theorem pair_try_lock_fail (t : Nat) (b : Binding) (st : List Resource)
    (h : (pair_try_lock t b st).1 = false) : (pair_try_lock t b st).2 = st := by
  unfold pair_try_lock at h ⊢
  cases hm : st[b.res]? with
  | none => rfl
  | some r =>
    rw [hm] at h
    cases hmode : b.mode with
    | writeM =>
      rw [hmode] at h
      dsimp only at h ⊢
      rw [ts_try_write_fail r t h]
      exact set_self_of_getElem st b.res r hm
    | readM =>
      rw [hmode] at h
      dsimp only at h ⊢
      rw [ts_try_read_fail r t h]
      exact set_self_of_getElem st b.res r hm

theorem pair_try_lock_succ (t : Nat) (b : Binding) (st : List Resource)
    (h : (pair_try_lock t b st).1 = true) :
    ∃ x : Bool × Nat, (proj st)[b.res]? = some x ∧ x.1 = false ∧
      ((b.mode = LMode.writeM ∧ x.2 = 0 ∧
        proj (pair_try_lock t b st).2 = (proj st).set b.res (true, 0)) ∨
       (b.mode = LMode.readM ∧
        proj (pair_try_lock t b st).2 = (proj st).set b.res (false, x.2 + 1))) := by
  unfold pair_try_lock at h ⊢
  cases hm : st[b.res]? with
  | none =>
    rw [hm] at h
    exact absurd h (by simp)
  | some r =>
    rw [hm] at h
    refine ⟨lockState r, ?_, ?_, ?_⟩
    · rw [proj_getElem, hm]
      rfl
    · cases hmode : b.mode with
      | writeM =>
        rw [hmode] at h
        dsimp only at h
        unfold ts_try_write at h
        cases hc : (!r.m_write_lock && r.m_read_locks == 0
            && thread_can_claim r t) with
        | false => rw [if_neg (by simp [hc])] at h; exact absurd h (by simp)
        | true =>
          have hc' := hc
          simp only [Bool.and_eq_true, Bool.not_eq_true'] at hc'
          exact hc'.1.1
      | readM =>
        rw [hmode] at h
        dsimp only at h
        unfold ts_try_read at h
        cases hc : (!r.m_write_lock && thread_can_claim r t) with
        | false => rw [if_neg (by simp [hc])] at h; exact absurd h (by simp)
        | true =>
          have hc' := hc
          simp only [Bool.and_eq_true, Bool.not_eq_true'] at hc'
          exact hc'.1
    · cases hmode : b.mode with
      | writeM =>
        rw [hmode] at h
        dsimp only at h
        unfold ts_try_write at h
        cases hc : (!r.m_write_lock && r.m_read_locks == 0
            && thread_can_claim r t) with
        | false => rw [if_neg (by simp [hc])] at h; exact absurd h (by simp)
        | true =>
          have hc' := hc
          simp only [Bool.and_eq_true, Bool.not_eq_true', beq_iff_eq] at hc'
          refine Or.inl ⟨rfl, hc'.1.2, ?_⟩
          have heq : ts_try_write r t
              = (true, ThreadSafe_unreserve { r with m_write_lock := true }) := by
            unfold ts_try_write; rw [if_pos hc]
          dsimp only
          rw [heq]
          dsimp only
          rw [proj_set]
          have : lockState (ThreadSafe_unreserve { r with m_write_lock := true })
              = (true, 0) := by
            simp [lockState, ThreadSafe_unreserve, hc'.1.2]
          rw [this]
      | readM =>
        rw [hmode] at h
        dsimp only at h
        unfold ts_try_read at h
        cases hc : (!r.m_write_lock && thread_can_claim r t) with
        | false => rw [if_neg (by simp [hc])] at h; exact absurd h (by simp)
        | true =>
          refine Or.inr ⟨rfl, ?_⟩
          have heq : ts_try_read r t
              = (true, ThreadSafe_unreserve
                  { r with m_read_locks := r.m_read_locks + 1 }) := by
            unfold ts_try_read; rw [if_pos hc]
          have hc' := hc
          simp only [Bool.and_eq_true, Bool.not_eq_true'] at hc'
          dsimp only
          rw [heq]
          dsimp only
          rw [proj_set]
          have : lockState (ThreadSafe_unreserve
                { r with m_read_locks := r.m_read_locks + 1 })
              = (false, (lockState r).2 + 1) := by
            simp [lockState, ThreadSafe_unreserve, hc'.1]
          rw [this]

theorem projUnlock_revert (t : Nat) (b : Binding) (st : List Resource)
    (h : (pair_try_lock t b st).1 = true) :
    projUnlock b (proj (pair_try_lock t b st).2) = proj st := by
  obtain ⟨x, hx, hx1, hcase⟩ := pair_try_lock_succ t b st h
  have hlen : b.res < (proj st).length := (List.getElem?_eq_some.mp hx).1
  rcases hcase with ⟨hmode, hx2, hst⟩ | ⟨hmode, hst⟩
  · rw [hst]
    unfold projUnlock
    rw [List.getElem?_set_self (by simpa using hlen), hmode]
    dsimp only
    rw [List.set_set]
    have hx' : x = (false, 0) := by
      cases x
      simp_all
    rw [← hx']
    exact set_self_of_getElem (proj st) b.res x hx
  · rw [hst]
    unfold projUnlock
    rw [List.getElem?_set_self (by simpa using hlen), hmode]
    dsimp only
    rw [List.set_set]
    simp only [Nat.add_sub_cancel]
    have hx' : x = (false, x.2) := by
      cases x
      simp_all
    rw [← hx']
    exact set_self_of_getElem (proj st) b.res x hx

theorem proj_pair_unlock (b : Binding) (st : List Resource) :
    proj (pair_unlock b st) = projUnlock b (proj st) := by
  unfold pair_unlock projUnlock
  rw [proj_getElem]
  cases hm : st[b.res]? with
  | none => rfl
  | some r =>
    cases hmode : b.mode with
    | writeM =>
      dsimp only [Option.map]
      rw [proj_set]
      rfl
    | readM =>
      dsimp only [Option.map]
      rw [proj_set]
      rfl

theorem proj_unlock_all :
    ∀ (bs : List Binding) (st : List Resource),
      proj (unlock_all bs st)
        = bs.foldl (fun s b => projUnlock b s) (proj st)
  | [], _ => rfl
  | b :: bs, st => by
    show proj (unlock_all bs (pair_unlock b st)) = _
    rw [proj_unlock_all bs (pair_unlock b st), proj_pair_unlock]
    rfl

theorem try_lock_list_rollback (t : Nat) :
    ∀ (bs : List Binding) (st : List Resource),
      (try_lock_list t bs st).1 = false →
      proj (try_lock_list t bs st).2 = proj st
  | [], st, h => by simp [try_lock_list] at h
  | [b], st, h => by
    have hfail : (pair_try_lock t b st).1 = false := h
    show proj (pair_try_lock t b st).2 = proj st
    rw [pair_try_lock_fail t b st hfail]
  | b :: b2 :: bs, st, h => by
    cases hp : (pair_try_lock t b st).1 with
    | false =>
      simp only [try_lock_list, hp, Bool.false_eq_true, if_false]
      rw [pair_try_lock_fail t b st hp]
    | true =>
      cases hq : (try_lock_list t (b2 :: bs) (pair_try_lock t b st).2).1 with
      | true =>
        simp only [try_lock_list, hp, hq, if_true] at h
        exact absurd h (by simp)
      | false =>
        have ih := try_lock_list_rollback t (b2 :: bs)
          (pair_try_lock t b st).2 hq
        simp only [try_lock_list, hp, hq, if_true, Bool.false_eq_true,
          if_false]
        rw [proj_pair_unlock, ih]
        exact projUnlock_revert t b st hp

theorem wcnt_nil (i : Nat) : wcnt [] i = 0 := rfl

theorem rcnt_nil (i : Nat) : rcnt [] i = 0 := rfl

theorem wcnt_cons (b : Binding) (acq : List Binding) (i : Nat) :
    wcnt (b :: acq) i
      = wcnt acq i
        + (if b.mode == LMode.writeM && b.res == i then 1 else 0) := by
  simp [wcnt, List.countP_cons]

theorem rcnt_cons (b : Binding) (acq : List Binding) (i : Nat) :
    rcnt (b :: acq) i
      = rcnt acq i
        + (if b.mode == LMode.readM && b.res == i then 1 else 0) := by
  simp [rcnt, List.countP_cons]

theorem wcnt_append_one (acq : List Binding) (b : Binding) (i : Nat) :
    wcnt (acq ++ [b]) i
      = wcnt acq i
        + (if b.mode == LMode.writeM && b.res == i then 1 else 0) := by
  simp [wcnt, List.countP_append, List.countP_cons]

theorem rcnt_append_one (acq : List Binding) (b : Binding) (i : Nat) :
    rcnt (acq ++ [b]) i
      = rcnt acq i
        + (if b.mode == LMode.readM && b.res == i then 1 else 0) := by
  simp [rcnt, List.countP_append, List.countP_cons]

theorem acqInv_nil (ps : List (Bool × Nat)) : AcqInv ps [] ps := by
  refine ⟨rfl, by simp, ?_⟩
  intro i x0 x h0 h1
  rw [h0] at h1
  injection h1 with h1
  subst h1
  constructor
  · intro _
    exact ⟨rfl, by simp [rcnt_nil], fun hr => absurd (rcnt_nil i) hr⟩
  · intro hw
    exact absurd (wcnt_nil i) hw

theorem acqInv_cancel :
    ∀ (acq : List Binding) (ps0 ps : List (Bool × Nat)),
      AcqInv ps0 acq ps →
      acq.foldl (fun s b => projUnlock b s) ps = ps0
  | [], ps0, ps, h => by
    obtain ⟨hlen, -, hinv⟩ := h
    show ps = ps0
    apply List.ext_getElem?
    intro n
    cases h0 : ps0[n]? with
    | none =>
      apply List.getElem?_eq_none
      have := List.getElem?_eq_none_iff.mp h0
      omega
    | some x0 =>
      have hn : n < ps.length := by
        have := (List.getElem?_eq_some.mp h0).1
        omega
      have h1 := List.getElem?_eq_getElem hn
      obtain ⟨hp1, -⟩ := hinv n x0 _ h0 h1
      obtain ⟨ha, hb, -⟩ := hp1 (wcnt_nil n)
      rw [h1]
      have hb2 : ps[n].2 = x0.2 := by simpa [rcnt_nil] using hb
      rw [Prod.ext ha hb2]
  | b :: acq, ps0, ps, h => by
    obtain ⟨hlen, hmem, hinv⟩ := h
    have hb_lt : b.res < ps.length := hmem b (List.mem_cons_self b acq)
    have hbx := List.getElem?_eq_getElem hb_lt
    have h0_lt : b.res < ps0.length := by omega
    have h0x := List.getElem?_eq_getElem h0_lt
    obtain ⟨hP1, hP2⟩ := hinv b.res _ _ h0x hbx
    show acq.foldl (fun s c => projUnlock c s) (projUnlock b ps) = ps0
    apply acqInv_cancel acq ps0 (projUnlock b ps)
    cases hmode : b.mode with
    | writeM =>
      have hwcnt : wcnt (b :: acq) b.res = wcnt acq b.res + 1 := by
        rw [wcnt_cons]
        simp [hmode]
      have hrcnt : rcnt (b :: acq) b.res = rcnt acq b.res := by
        rw [rcnt_cons]
        simp [hmode]
      obtain ⟨hw1, hr0, hx0, hx⟩ := hP2 (by omega)
      have hwa : wcnt acq b.res = 0 := by omega
      have hra : rcnt acq b.res = 0 := by omega
      have hPU : projUnlock b ps = ps.set b.res (false, ps[b.res].2) := by
        unfold projUnlock
        rw [hbx, hmode]
      rw [hPU]
      refine ⟨by simp [hlen], ?_, ?_⟩
      · intro c hc
        have := hmem c (List.mem_cons_of_mem b hc)
        simpa using this
      · intro i y0 y h0 h1
        by_cases hi : i = b.res
        · subst hi
          rw [List.getElem?_set_self hb_lt] at h1
          injection h1 with h1
          subst h1
          rw [h0x] at h0
          injection h0 with h0
          subst h0
          constructor
          · intro _
            rw [hx0]
            rw [hx] at *
            refine ⟨rfl, by simp [hra], fun _ => rfl⟩
          · intro hcontra
            exact absurd hwa hcontra
        · rw [List.getElem?_set_ne (fun he => hi he.symm)] at h1
          obtain ⟨hQ1, hQ2⟩ := hinv i y0 y h0 h1
          have hwi : wcnt (b :: acq) i = wcnt acq i := by
            rw [wcnt_cons]
            simp [beq_iff_eq]
            intro _
            intro hri
            exact absurd hri.symm hi
          have hri : rcnt (b :: acq) i = rcnt acq i := by
            rw [rcnt_cons]
            simp [hmode]
          rw [hwi, hri] at hQ1 hQ2
          exact ⟨hQ1, hQ2⟩
    | readM =>
      have hwcnt : wcnt (b :: acq) b.res = wcnt acq b.res := by
        rw [wcnt_cons]
        simp [hmode]
      have hrcnt : rcnt (b :: acq) b.res = rcnt acq b.res + 1 := by
        rw [rcnt_cons]
        simp [hmode]
      have hwa : wcnt acq b.res = 0 := by
        by_contra hne
        obtain ⟨-, hr0, -, -⟩ := hP2 (by omega)
        omega
      obtain ⟨hxa, hxb, hxc⟩ := hP1 (by omega)
      have hx0c : ps0[b.res].1 = false := hxc (by omega)
      have hPU : projUnlock b ps
          = ps.set b.res (ps[b.res].1, ps[b.res].2 - 1) := by
        unfold projUnlock
        rw [hbx, hmode]
      rw [hPU]
      refine ⟨by simp [hlen], ?_, ?_⟩
      · intro c hc
        have := hmem c (List.mem_cons_of_mem b hc)
        simpa using this
      · intro i y0 y h0 h1
        by_cases hi : i = b.res
        · subst hi
          rw [List.getElem?_set_self hb_lt] at h1
          injection h1 with h1
          subst h1
          rw [h0x] at h0
          injection h0 with h0
          subst h0
          constructor
          · intro _
            refine ⟨by simpa using hxa, by simp; omega, fun _ => hx0c⟩
          · intro hcontra
            exact absurd hwa hcontra
        · rw [List.getElem?_set_ne (fun he => hi he.symm)] at h1
          obtain ⟨hQ1, hQ2⟩ := hinv i y0 y h0 h1
          have hwi : wcnt (b :: acq) i = wcnt acq i := by
            rw [wcnt_cons]
            simp [hmode]
          have hri : rcnt (b :: acq) i = rcnt acq i := by
            rw [rcnt_cons]
            simp [beq_iff_eq]
            intro _
            intro hri
            exact absurd hri.symm hi
          rw [hwi, hri] at hQ1 hQ2
          exact ⟨hQ1, hQ2⟩

theorem acqInv_extend (t : Nat) (b : Binding) (st : List Resource)
    (ps0 : List (Bool × Nat)) (acq : List Binding)
    (hInv : AcqInv ps0 acq (proj st))
    (h : (pair_try_lock t b st).1 = true) :
    AcqInv ps0 (acq ++ [b]) (proj (pair_try_lock t b st).2) := by
  obtain ⟨hlen, hmem, hinv⟩ := hInv
  obtain ⟨x, hx, hx1, hcase⟩ := pair_try_lock_succ t b st h
  have hb_lt : b.res < (proj st).length := (List.getElem?_eq_some.mp hx).1
  have h0_lt : b.res < ps0.length := by omega
  have h0x := List.getElem?_eq_getElem h0_lt
  obtain ⟨hP1, hP2⟩ := hinv b.res _ _ h0x hx
  have hwa : wcnt acq b.res = 0 := by
    by_contra hne
    obtain ⟨-, -, -, hxx⟩ := hP2 hne
    rw [hxx] at hx1
    exact Bool.noConfusion hx1
  obtain ⟨hxa, hxb, hxc⟩ := hP1 hwa
  have hx0_1 : ps0[b.res].1 = false := by rw [← hxa, hx1]
  rcases hcase with ⟨hmode, hx2, hst⟩ | ⟨hmode, hst⟩
  · rw [hst]
    have hrca : rcnt acq b.res = 0 := by omega
    have hx0_2 : ps0[b.res].2 = 0 := by omega
    refine ⟨by simp [hlen], ?_, ?_⟩
    · intro c hc
      rcases List.mem_append.mp hc with hc | hc
      · have := hmem c hc
        simpa using this
      · simp at hc
        subst hc
        simpa using hb_lt
    · intro i y0 y h0 h1
      by_cases hi : i = b.res
      · subst hi
        rw [List.getElem?_set_self hb_lt] at h1
        injection h1 with h1
        subst h1
        rw [h0x] at h0
        injection h0 with h0
        subst h0
        have hwi : wcnt (acq ++ [b]) b.res = 1 := by
          rw [wcnt_append_one]
          simp [hmode, hwa]
        have hri : rcnt (acq ++ [b]) b.res = 0 := by
          rw [rcnt_append_one]
          simp [hmode, hrca]
        constructor
        · intro hcontra
          rw [hwi] at hcontra
          omega
        · intro _
          exact ⟨hwi, hri, Prod.ext hx0_1 hx0_2, rfl⟩
      · rw [List.getElem?_set_ne (fun he => hi he.symm)] at h1
        obtain ⟨hQ1, hQ2⟩ := hinv i y0 y h0 h1
        have hwi : wcnt (acq ++ [b]) i = wcnt acq i := by
          rw [wcnt_append_one]
          simp [beq_iff_eq]
          intro _
          intro hri
          exact absurd hri.symm hi
        have hri : rcnt (acq ++ [b]) i = rcnt acq i := by
          rw [rcnt_append_one]
          simp [hmode]
        rw [hwi, hri]
        exact ⟨hQ1, hQ2⟩
  · rw [hst]
    refine ⟨by simp [hlen], ?_, ?_⟩
    · intro c hc
      rcases List.mem_append.mp hc with hc | hc
      · have := hmem c hc
        simpa using this
      · simp at hc
        subst hc
        simpa using hb_lt
    · intro i y0 y h0 h1
      by_cases hi : i = b.res
      · subst hi
        rw [List.getElem?_set_self hb_lt] at h1
        injection h1 with h1
        subst h1
        rw [h0x] at h0
        injection h0 with h0
        subst h0
        have hwi : wcnt (acq ++ [b]) b.res = 0 := by
          rw [wcnt_append_one]
          simp [hmode, hwa]
        have hri : rcnt (acq ++ [b]) b.res = rcnt acq b.res + 1 := by
          rw [rcnt_append_one]
          simp [hmode]
        constructor
        · intro _
          refine ⟨hx0_1.symm, ?_, fun _ => hx0_1⟩
          rw [hri]
          omega
        · intro hcontra
          rw [hwi] at hcontra
          exact absurd rfl hcontra
      · rw [List.getElem?_set_ne (fun he => hi he.symm)] at h1
        obtain ⟨hQ1, hQ2⟩ := hinv i y0 y h0 h1
        have hwi : wcnt (acq ++ [b]) i = wcnt acq i := by
          rw [wcnt_append_one]
          simp [hmode]
        have hri : rcnt (acq ++ [b]) i = rcnt acq i := by
          rw [rcnt_append_one]
          simp [beq_iff_eq]
          intro _
          intro hrr
          exact absurd hrr.symm hi
        rw [hwi, hri]
        exact ⟨hQ1, hQ2⟩

theorem try_lock_range_from_spec (t : Nat) :
    ∀ (rest acq : List Binding) (st : List Resource)
      (ps0 : List (Bool × Nat)),
      AcqInv ps0 acq (proj st) →
      ((try_lock_range_from t acq rest st).1 = false →
        proj (try_lock_range_from t acq rest st).2 = ps0) ∧
      ((try_lock_range_from t acq rest st).1 = true →
        AcqInv ps0 (acq ++ rest) (proj (try_lock_range_from t acq rest st).2))
  | [], acq, st, ps0, hInv => by
    constructor
    · intro h
      exact absurd h (by simp [try_lock_range_from])
    · intro _
      simpa [try_lock_range_from] using hInv
  | b :: rest, acq, st, ps0, hInv => by
    cases hp : (pair_try_lock t b st).1 with
    | true =>
      have hInv2 := acqInv_extend t b st ps0 acq hInv hp
      have ih := try_lock_range_from_spec t rest (acq ++ [b])
        (pair_try_lock t b st).2 ps0 hInv2
      constructor
      · intro h
        have hh : (try_lock_range_from t (acq ++ [b]) rest
            (pair_try_lock t b st).2).1 = false := by
          simpa [try_lock_range_from, hp] using h
        have := ih.1 hh
        simpa [try_lock_range_from, hp] using this
      · intro h
        have hh : (try_lock_range_from t (acq ++ [b]) rest
            (pair_try_lock t b st).2).1 = true := by
          simpa [try_lock_range_from, hp] using h
        have := ih.2 hh
        simpa [try_lock_range_from, hp, List.append_assoc] using this
    | false =>
      constructor
      · intro _
        have hfail := pair_try_lock_fail t b st hp
        simp only [try_lock_range_from, hp, Bool.false_eq_true, if_false]
        rw [hfail, proj_unlock_all]
        exact acqInv_cancel acq ps0 (proj st) hInv
      · intro h
        exact absurd h (by simp [try_lock_range_from, hp])

theorem try_lock_ranges_rollback (t : Nat) :
    ∀ (rgs : List (List Binding)) (st : List Resource),
      (try_lock_ranges t rgs st).1 = false →
      proj (try_lock_ranges t rgs st).2 = proj st
  | [], st, h => by simp [try_lock_ranges] at h
  | rg :: rest, st, h => by
    have hspec := try_lock_range_from_spec t rg [] st (proj st)
      (acqInv_nil (proj st))
    cases hp : (try_lock_range_from t [] rg st).1 with
    | false =>
      simp only [try_lock_ranges, hp, Bool.false_eq_true, if_false]
      exact hspec.1 hp
    | true =>
      have hInv : AcqInv (proj st) rg
          (proj (try_lock_range_from t [] rg st).2) := by
        simpa using hspec.2 hp
      cases hq : (try_lock_ranges t rest
          (try_lock_range_from t [] rg st).2).1 with
      | true =>
        exfalso
        simp [try_lock_ranges, hp, hq] at h
      | false =>
        have ih := try_lock_ranges_rollback t rest
          (try_lock_range_from t [] rg st).2 hq
        simp only [try_lock_ranges, hp, hq, if_true, Bool.false_eq_true,
          if_false]
        rw [proj_unlock_all, ih]
        exact acqInv_cancel rg (proj st) _ hInv

/-! ### The reachability invariant, and grant-condition characterizations -/

theorem reachable_inv {s : Sys} (h : Reachable s) : SysInv s := by
  induction h with
  | init junk v => exact ⟨rfl, Nat.le_refl 0, fun _ => rfl⟩
  | step _ hstep ih => exact step_inv hstep ih

theorem tcc_iff (r : Resource) (t : Nat) :
    thread_can_claim r t = true ↔
      (r.m_reserved_by = none ∨ r.m_reserved_by = some t) := by
  unfold thread_can_claim ThreadSafe_reserved
  cases hrb : r.m_reserved_by with
  | none => simp
  | some q => simp

theorem try_write_succ_iff (r : Resource) (t : Nat) :
    (ts_try_write r t).1 = true ↔
      ((r.m_write_lock = false ∧ r.m_read_locks = 0) ∧
       (r.m_reserved_by = none ∨ r.m_reserved_by = some t)) := by
  unfold ts_try_write
  cases hc : (!r.m_write_lock && r.m_read_locks == 0
      && thread_can_claim r t) with
  | true =>
    have hc' := hc
    simp only [Bool.and_eq_true, Bool.not_eq_true', beq_iff_eq] at hc'
    exact iff_of_true rfl ⟨hc'.1, (tcc_iff r t).mp hc'.2⟩
  | false =>
    apply iff_of_false
    · simp
    · rintro ⟨⟨hw, hr⟩, hres⟩
      have hcl : (!r.m_write_lock && r.m_read_locks == 0
          && thread_can_claim r t) = true := by
        simp [hw, hr]
        exact (tcc_iff r t).mpr hres
      rw [hc] at hcl
      exact Bool.noConfusion hcl

theorem try_read_succ_iff (r : Resource) (t : Nat) :
    (ts_try_read r t).1 = true ↔
      (r.m_write_lock = false ∧
       (r.m_reserved_by = none ∨ r.m_reserved_by = some t)) := by
  unfold ts_try_read
  cases hc : (!r.m_write_lock && thread_can_claim r t) with
  | true =>
    have hc' := hc
    simp only [Bool.and_eq_true, Bool.not_eq_true'] at hc'
    exact iff_of_true rfl ⟨hc'.1, (tcc_iff r t).mp hc'.2⟩
  | false =>
    apply iff_of_false
    · simp
    · rintro ⟨hw, hres⟩
      have hcl : (!r.m_write_lock && thread_can_claim r t) = true := by
        simp [hw]
        exact (tcc_iff r t).mpr hres
      rw [hc] at hcl
      exact Bool.noConfusion hcl

theorem write_iteration_fst (r : Resource) (t k : Nat) :
    (write_iteration r t k).1 = (ts_try_write r t).1 := by
  unfold write_iteration ts_try_write
  cases hc : (!r.m_write_lock && r.m_read_locks == 0
      && thread_can_claim r t) with
  | true => rfl
  | false => rfl

theorem read_iteration_fst (r : Resource) (t k : Nat) :
    (read_iteration r t k).1 = (ts_try_read r t).1 := by
  unfold read_iteration ts_try_read
  cases hc : (!r.m_write_lock && thread_can_claim r t) with
  | true => rfl
  | false => rfl

theorem bound_read_blocks_write {s : Sys} (t : Nat) (h : Reachable s)
    (hbr : 1 ≤ boundR s.guards) : (ts_try_write s.res t).1 = false := by
  obtain ⟨h2, h3, h4⟩ := reachable_inv h
  have hr : s.res.m_read_locks ≠ 0 := by omega
  have hne : ¬((!s.res.m_write_lock && s.res.m_read_locks == 0
      && thread_can_claim s.res t) = true) := by
    simp only [Bool.and_eq_true, Bool.not_eq_true', beq_iff_eq]
    rintro ⟨⟨-, hr0⟩, -⟩
    exact hr hr0
  unfold ts_try_write
  rw [if_neg hne]

theorem bound_write_blocks_read {s : Sys} (t : Nat) (h : Reachable s)
    (hbw : 1 ≤ boundW s.guards) : (ts_try_read s.res t).1 = false := by
  obtain ⟨h2, h3, h4⟩ := reachable_inv h
  have hw : s.res.m_write_lock = true := by
    cases hwb : s.res.m_write_lock with
    | true => rfl
    | false => rw [hwb] at h2; simp at h2; omega
  have hne : ¬((!s.res.m_write_lock && thread_can_claim s.res t) = true) := by
    simp only [Bool.and_eq_true, Bool.not_eq_true']
    rintro ⟨hw0, -⟩
    rw [hw] at hw0
    exact Bool.noConfusion hw0
  unfold ts_try_read
  rw [if_neg hne]

/-! ### The claims -/

/-- C1: for every `ThreadSafe` resource, a lock request (`write`, `try_write`,
`read`, `try_read`) succeeds if and only if (a) the structural condition for
its mode holds — no writer present for a read request, neither writer nor any
reader present for a write request — and (b) the resource is unreserved or
reserved by the requesting thread.  In particular, `try_write` on a resource
with a live bound `ReadGuard` returns an empty guard, and `try_read` on a
resource with a live bound `WriteGuard` returns an empty guard. -/
theorem claim_C1 (r : Resource) (t k : Nat) :
    ((ts_try_write r t).1 = true ↔
      ((r.m_write_lock = false ∧ r.m_read_locks = 0) ∧
       (r.m_reserved_by = none ∨ r.m_reserved_by = some t))) ∧
    ((ts_try_read r t).1 = true ↔
      (r.m_write_lock = false ∧
       (r.m_reserved_by = none ∨ r.m_reserved_by = some t))) ∧
    ((write_iteration r t k).1 = true ↔
      ((r.m_write_lock = false ∧ r.m_read_locks = 0) ∧
       (r.m_reserved_by = none ∨ r.m_reserved_by = some t))) ∧
    ((read_iteration r t k).1 = true ↔
      (r.m_write_lock = false ∧
       (r.m_reserved_by = none ∨ r.m_reserved_by = some t))) ∧
    (∀ s : Sys, Reachable s → 1 ≤ boundR s.guards →
      (ts_try_write s.res t).1 = false) ∧
    (∀ s : Sys, Reachable s → 1 ≤ boundW s.guards →
      (ts_try_read s.res t).1 = false) := by
  refine ⟨try_write_succ_iff r t, try_read_succ_iff r t, ?_, ?_, ?_, ?_⟩
  · rw [write_iteration_fst]
    exact try_write_succ_iff r t
  · rw [read_iteration_fst]
    exact try_read_succ_iff r t
  · intro s hs hbr
    exact bound_read_blocks_write t hs hbr
  · intro s hs hbw
    exact bound_write_blocks_read t hs hbw

/-- Witness for C1 at concrete inputs: a grant on a free resource, a refused
`try_write` against a reachable state holding a bound `ReadGuard`, and a
refused `try_read` against a reachable state holding a bound `WriteGuard`. -/
theorem claim_C1_witness :
    (ts_try_write (Resource.mk false 0 5 none 7) 3).1 = true ∧
    (ts_try_write (Sys.mk (Resource.mk false 1 0 none 0)
        [⟨GKind.readG, true⟩]).res 3).1 = false ∧
    (ts_try_read (Sys.mk (Resource.mk true 0 0 none 0)
        [⟨GKind.writeG, true⟩]).res 3).1 = false := by
  have hr1 : Reachable (Sys.mk (Resource.mk false 1 0 none 0)
      [⟨GKind.readG, true⟩]) :=
    Reachable.step (Reachable.init 0 0)
      (Step.try_read 1 ⟨ThreadSafe_mk 0 0, []⟩)
  have hr2 : Reachable (Sys.mk (Resource.mk true 0 0 none 0)
      [⟨GKind.writeG, true⟩]) :=
    Reachable.step (Reachable.init 0 0)
      (Step.try_write 1 ⟨ThreadSafe_mk 0 0, []⟩)
  exact ⟨(claim_C1 (Resource.mk false 0 5 none 7) 3 0).1.mpr
      ⟨⟨rfl, rfl⟩, Or.inl rfl⟩,
    (claim_C1 (Resource.mk false 0 0 none 0) 3 0).2.2.2.2.1 _ hr1 (by decide),
    (claim_C1 (Resource.mk false 0 0 none 0) 3 0).2.2.2.2.2 _ hr2 (by decide)⟩

/-- C2 (failing evaluation): `helper::reserve(ticket, a, b)` — as called from
the contended loop of `multi_lock` — leaves the first resource completely
untouched (in particular unreserved) and reserves only the last one, because
the variadic overload recurses on `rest...` without ever calling
`ts.reserve(ticket)` on its own `ts` parameter.  Exercised here with
ticket 5, calling thread 3, and two distinct unreserved resources. -/
theorem claim_C2_bug :
    helper_reserve 5 3
        [Resource.mk false 0 0 none 1, Resource.mk false 0 0 none 2]
      = [Resource.mk false 0 0 none 1, Resource.mk false 0 5 (some 3) 2]
    ∧ ThreadSafe_reserved (Resource.mk false 0 0 none 1) = false := by
  decide

/-- C3: if the optimistic try-lock pass of `multi_lock` (`helper::try_lock`)
or of `range_lock` (`helper::try_lock_ranges`) fails, every binding acquired
earlier in that pass has been released: the write flag and read count of every
resource in the store are exactly what they were before the pass. -/
theorem claim_C3 (t : Nat) (st : List Resource) :
    (∀ bs : List Binding, (try_lock_list t bs st).1 = false →
      proj (try_lock_list t bs st).2 = proj st) ∧
    (∀ rgs : List (List Binding), (try_lock_ranges t rgs st).1 = false →
      proj (try_lock_ranges t rgs st).2 = proj st) :=
  ⟨fun bs => try_lock_list_rollback t bs st,
   fun rgs => try_lock_ranges_rollback t rgs st⟩

/-- Witness for C3: a two-binding pass over (free resource, write-locked
resource) acquires the first binding, fails on the second, and leaves both
resources' lock states exactly as before — for the variadic pass and for the
range pass. -/
theorem claim_C3_witness :
    proj (try_lock_list 0 [⟨LMode.writeM, 0⟩, ⟨LMode.writeM, 1⟩]
        [Resource.mk false 0 0 none 1, Resource.mk true 0 0 none 2]).2
      = proj [Resource.mk false 0 0 none 1, Resource.mk true 0 0 none 2] ∧
    proj (try_lock_ranges 0 [[⟨LMode.writeM, 0⟩, ⟨LMode.writeM, 1⟩]]
        [Resource.mk false 0 0 none 1, Resource.mk true 0 0 none 2]).2
      = proj [Resource.mk false 0 0 none 1, Resource.mk true 0 0 none 2] :=
  ⟨(claim_C3 0 [Resource.mk false 0 0 none 1, Resource.mk true 0 0 none 2]).1
      [⟨LMode.writeM, 0⟩, ⟨LMode.writeM, 1⟩] (by decide),
   (claim_C3 0 [Resource.mk false 0 0 none 1, Resource.mk true 0 0 none 2]).2
      [[⟨LMode.writeM, 0⟩, ⟨LMode.writeM, 1⟩]] (by decide)⟩

/-- C4: in every reachable state of a `ThreadSafe` resource, at most one
`WriteLock` is bound to it, the write flag is never set while the read count
is nonzero, and a bound `WriteLock` and a bound `ReadLock` never coexist. -/
theorem claim_C4 {s : Sys} (h : Reachable s) :
    boundW s.guards ≤ 1 ∧
    (s.res.m_write_lock = true → s.res.m_read_locks = 0) ∧
    ¬(1 ≤ boundW s.guards ∧ 1 ≤ boundR s.guards) := by
  obtain ⟨h2, h3, h4⟩ := reachable_inv h
  refine ⟨?_, h4, ?_⟩
  · rw [h2]
    cases s.res.m_write_lock <;> simp
  · rintro ⟨hW1, hR1⟩
    have hw : s.res.m_write_lock = true := by
      cases hwb : s.res.m_write_lock with
      | true => rfl
      | false => rw [hwb] at h2; simp at h2; omega
    have := h4 hw
    omega

/-- Witness for C4 at the freshly constructed resource. -/
theorem claim_C4_witness :
    boundW (Sys.mk (ThreadSafe_mk 0 0) []).guards ≤ 1 ∧
    ((Sys.mk (ThreadSafe_mk 0 0) []).res.m_write_lock = true →
      (Sys.mk (ThreadSafe_mk 0 0) []).res.m_read_locks = 0) ∧
    ¬(1 ≤ boundW (Sys.mk (ThreadSafe_mk 0 0) []).guards ∧
      1 ≤ boundR (Sys.mk (ThreadSafe_mk 0 0) []).guards) :=
  claim_C4 (Reachable.init 0 0)

/-- C5 (failing evaluation): a reachable state in which the read count (2)
exceeds the number of live bound `ReadGuard`s (1).  Trace: `try_read` binds
one guard (count 1); copy-assigning that guard from itself
(`ReadLock::operator=(ReadLock const&)` with `m_proxy == other.m_proxy`)
skips the decrement but still increments, leaking one unit of read count. -/
theorem claim_C5_bug :
    Reachable (Sys.mk (Resource.mk false 2 0 none 0) [⟨GKind.readG, true⟩]) ∧
    (Sys.mk (Resource.mk false 2 0 none 0)
        [⟨GKind.readG, true⟩]).res.m_read_locks
      ≠ boundR (Sys.mk (Resource.mk false 2 0 none 0)
        [⟨GKind.readG, true⟩]).guards := by
  constructor
  · exact Reachable.step
      (Reachable.step (Reachable.init 0 0)
        (Step.try_read 1 ⟨ThreadSafe_mk 0 0, []⟩))
      (Step.rl_copy_assign 0 0 ⟨GKind.readG, true⟩ ⟨GKind.readG, true⟩
        (Sys.mk (Resource.mk false 1 0 none 0) [⟨GKind.readG, true⟩])
        rfl rfl rfl rfl)
  · decide

/-- C6: `reserve(priority)` installs `(priority, caller)` when the resource is
unreserved or the new priority strictly exceeds the stored one; on an exact
priority tie it resolves the claim in favour of the smaller of the two thread
identities (the stored claimant and the caller); otherwise it changes
nothing. -/
theorem claim_C6 (r : Resource) (p t q : Nat) :
    ((ThreadSafe_reserved r = false ∨ r.m_priority < p) →
      ThreadSafe_reserve r p t
        = { r with m_reserved_by := some t, m_priority := p }) ∧
    (r.m_reserved_by = some q → r.m_priority = p →
      ThreadSafe_reserve r p t
        = { r with m_reserved_by := some (min q t) }) ∧
    (r.m_reserved_by = some q → p < r.m_priority →
      ThreadSafe_reserve r p t = r) := by
  refine ⟨?_, ?_, ?_⟩
  · intro hcond
    unfold ThreadSafe_reserve reserve_locked
    split
    · rfl
    · next hneg =>
        exfalso
        apply hneg
        rcases hcond with hcond | hcond
        · simp [hcond]
        · simp [gt_iff_lt, hcond]
  · intro hq hp
    unfold ThreadSafe_reserve reserve_locked
    split
    · next hpos =>
        exfalso
        simp [ThreadSafe_reserved, hq, hp] at hpos
    · split
      · rw [hq]
        dsimp only
        split
        · next hge =>
            rw [Nat.min_eq_right hge]
        · next hlt =>
            rw [Nat.min_eq_left (by omega)]
            rw [← hq]
      · next hne =>
          exfalso
          apply hne
          simp [hp]
  · intro hq hlt
    unfold ThreadSafe_reserve reserve_locked
    split
    · next hpos =>
        exfalso
        simp [ThreadSafe_reserved, hq] at hpos
        omega
    · split
      · next heq =>
          exfalso
          simp only [beq_iff_eq] at heq
          omega
      · rfl

/-- Witness for C6: fresh claim on an unreserved resource; tie at priority 5
resolved to the smaller thread id (4 beats the stored 9); lower priority 3
leaves the reservation untouched. -/
theorem claim_C6_witness :
    ThreadSafe_reserve (Resource.mk false 0 0 none 0) 5 3
      = Resource.mk false 0 5 (some 3) 0 ∧
    ThreadSafe_reserve (Resource.mk false 0 5 (some 9) 0) 5 4
      = Resource.mk false 0 5 (some 4) 0 ∧
    ThreadSafe_reserve (Resource.mk false 0 5 (some 9) 0) 3 4
      = Resource.mk false 0 5 (some 9) 0 := by
  refine ⟨?_, ?_, ?_⟩
  · exact (claim_C6 (Resource.mk false 0 0 none 0) 5 3 0).1 (Or.inl rfl)
  · have := (claim_C6 (Resource.mk false 0 5 (some 9) 0) 5 4 9).2.1 rfl rfl
    simpa using this
  · exact (claim_C6 (Resource.mk false 0 5 (some 9) 0) 3 4 9).2.2 rfl
      (by decide)

/-- C7: destroying a `ThreadSafe` that is held fails the destructor's
assertion, and move-constructing from a held `ThreadSafe` throws
`bad_thread_safe_move` — in both directions: the error is raised exactly when
the resource is held, never silently skipped. -/
theorem claim_C7 (r : Resource) (junk : Nat) :
    (ThreadSafe_destruct r
        = Except.error TeardownError.bad_thread_safe_destruct
      ↔ (r.m_write_lock = true ∨ r.m_read_locks ≠ 0)) ∧
    (ThreadSafe_move_construct r junk
        = Except.error TeardownError.bad_thread_safe_move
      ↔ (r.m_write_lock = true ∨ r.m_read_locks ≠ 0)) := by
  constructor
  · cases hw : r.m_write_lock <;> by_cases hr0 : r.m_read_locks = 0 <;>
      simp [ThreadSafe_destruct, hw, hr0]
  · cases hw : r.m_write_lock <;> by_cases hr0 : r.m_read_locks = 0 <;>
      simp [ThreadSafe_move_construct, hw, hr0]

/-- Witness for C7: a write-held resource fails both teardown operations. -/
theorem claim_C7_witness :
    ThreadSafe_destruct (Resource.mk true 0 0 none 0)
      = Except.error TeardownError.bad_thread_safe_destruct ∧
    ThreadSafe_move_construct (Resource.mk true 0 0 none 0) 0
      = Except.error TeardownError.bad_thread_safe_move :=
  ⟨(claim_C7 (Resource.mk true 0 0 none 0) 0).1.mpr (Or.inl rfl),
   (claim_C7 (Resource.mk true 0 0 none 0) 0).2.mpr (Or.inl rfl)⟩

/-- C8: a moved-from guard (read or write) reports empty, and `unlock()` on it
fails the assertion instead of decrementing the read count or clearing the
write flag — the resource is never touched. -/
theorem claim_C8 (gr : ReadLockG) (gw : WriteLockG) (r : Resource) :
    RL_locked (RL_move_construct gr).2 = false ∧
    WL_locked (WL_move_construct gw).2 = false ∧
    RL_unlock (RL_move_construct gr).2 r
      = Except.error AssertViolation.empty_unlock ∧
    WL_unlock (WL_move_construct gw).2 r
      = Except.error AssertViolation.empty_unlock :=
  ⟨rfl, rfl, rfl, rfl⟩

/-- C9: a failed `try_write` or `try_read` returns the resource completely
unchanged — write flag, read count, reservation and wrapped value. -/
theorem claim_C9 (r : Resource) (t : Nat) :
    ((ts_try_write r t).1 = false → (ts_try_write r t).2 = r) ∧
    ((ts_try_read r t).1 = false → (ts_try_read r t).2 = r) :=
  ⟨ts_try_write_fail r t, ts_try_read_fail r t⟩

/-- Witness for C9: both try operations fail on a write-held resource and
return it unchanged. -/
theorem claim_C9_witness :
    (ts_try_write (Resource.mk true 0 0 (some 8) 4) 0).2
      = Resource.mk true 0 0 (some 8) 4 ∧
    (ts_try_read (Resource.mk true 0 0 (some 8) 4) 0).2
      = Resource.mk true 0 0 (some 8) 4 :=
  ⟨(claim_C9 (Resource.mk true 0 0 (some 8) 4) 0).1 rfl,
   (claim_C9 (Resource.mk true 0 0 (some 8) 4) 0).2 rfl⟩

/-- C10: move-constructing from a fully unlocked source succeeds and yields a
destination that is unlocked and unreserved, whatever reservation (claimant
and priority) the source carried; only the wrapped value is taken over. -/
theorem claim_C10 (r : Resource) (junk : Nat)
    (hw : r.m_write_lock = false) (hr : r.m_read_locks = 0) :
    ThreadSafe_move_construct r junk
      = Except.ok (Resource.mk false 0 junk none r.m_object)
    ∧ ThreadSafe_reserved (Resource.mk false 0 junk none r.m_object)
        = false := by
  constructor
  · unfold ThreadSafe_move_construct
    rw [if_neg (by simp [hw, hr])]
  · rfl

/-- Witness for C10: a source reserved by thread 7 at priority 9 moves into an
unreserved, unlocked destination carrying only the value 42. -/
theorem claim_C10_witness :
    ThreadSafe_move_construct (Resource.mk false 0 9 (some 7) 42) 0
      = Except.ok (Resource.mk false 0 0 none 42) ∧
    ThreadSafe_reserved (Resource.mk false 0 0 none 42) = false :=
  claim_C10 (Resource.mk false 0 9 (some 7) 42) 0 rfl rfl

end LockVerif
